import Mathlib

/-!
Shallow embedding of the Solana Token Management CLI (TypeScript sources in
`src/cli/src` and `src/unnamed`) together with theorems settling the claims
about it.  Network effects (RPC calls, transaction submission) are modelled by
explicit environments: an environment records, for each attempt or account,
what the corresponding SDK call would return.  Each embedded operation returns
the trace of SDK calls it performed together with its result
(`Except` models JavaScript `throw`).
-/

set_option maxHeartbeats 1000000

deriving instance DecidableEq for Except

namespace TokenCLI

/-- A Solana public key, identified by its base58 string
(`PublicKey.toBase58` in the SDK). -/
structure PublicKey where
  b58 : String
deriving DecidableEq, Repr

def PublicKey.toBase58 (p : PublicKey) : String := p.b58

/-! ## Retry wrappers (`src/cli/src/instructions.ts`, lines 138-186 and 602-619) -/

/-- Mutable state of a `@solana/web3.js` `Transaction`, restricted to the
fields `sendTransactionWithRetry` touches: `recentBlockhash`,
`lastValidBlockHeight` and the signature list (one entry per signer that has
signed). -/
structure TxState where
  recentBlockhash : Option Nat
  lastValidBlockHeight : Option Nat
  signatures : List PublicKey
deriving DecidableEq, Repr

/-- Environment for `sendTransactionWithRetry`: what
`connection.getLatestBlockhash` returns at attempt `k` and what
`sendAndConfirmTransaction` does at attempt `k` (`Except.error` models a
throw; the message string is the thrown error's message). -/
structure RetryEnv where
  blockhash : Nat → Nat
  lastValidHeight : Nat → Nat
  sendResult : Nat → Except String String

/-- One event of a `sendTransactionWithRetry` run: a transaction submitted at
attempt `k` (with the exact transaction state sent), or a backoff wait of
`ms` milliseconds performed after failed attempt `k`. -/
inductive REvent
  | sent (k : Nat) (tx : TxState)
  | waited (k : Nat) (ms : Nat)
deriving DecidableEq, Repr

/-- `signers.forEach(signer => transaction.sign(signer))`: each `sign` call
appends the signer's signature. -/
def signAll : TxState → List PublicKey → TxState
  | tx, [] => tx
  | tx, s :: rest => signAll { tx with signatures := tx.signatures ++ [s] } rest

/-- Body of one attempt before the send (instructions.ts lines 147-159):
store the freshly fetched blockhash and height, clear all signatures, then
sign with every signer. -/
def prepareTx (env : RetryEnv) (tx : TxState) (signers : List PublicKey) (k : Nat) : TxState :=
  signAll { tx with
              recentBlockhash := some (env.blockhash k),
              lastValidBlockHeight := some (env.lastValidHeight k),
              signatures := [] }
    signers

/-- The `for (let attempt = 0; attempt < maxRetries; attempt++)` loop of
`sendTransactionWithRetry`, as recursion on the number `r` of remaining
iterations, with `a` the current value of `attempt` and `lastError` the
`lastError` variable (`none` = still `undefined`).  Returns the event trace
and the overall result; a final `Except.error e` models `throw lastError`. -/
def sendTxRetryGo (env : RetryEnv) (signers : List PublicKey) (maxRetries : Nat) :
    Nat → Nat → TxState → Option String → List REvent × Except (Option String) String
  | _, 0, _, lastError => ([], .error lastError)
  | a, r + 1, tx, _ =>
    let tx1 := prepareTx env tx signers a
    match env.sendResult a with
    | .ok sig => ([.sent a tx1], .ok sig)
    | .error e =>
      let rest := sendTxRetryGo env signers maxRetries (a + 1) r tx1 (some e)
      if a < maxRetries - 1 then
        (.sent a tx1 :: .waited a (min (1000 * 2 ^ a) 10000) :: rest.1, rest.2)
      else
        (.sent a tx1 :: rest.1, rest.2)

/-- `sendTransactionWithRetry(transaction, signers, maxRetries)`
(instructions.ts lines 138-186). -/
def sendTransactionWithRetry (env : RetryEnv) (tx : TxState) (signers : List PublicKey)
    (maxRetries : Nat) : List REvent × Except (Option String) String :=
  sendTxRetryGo env signers maxRetries 0 maxRetries tx none

/-- `sendTransactionWithRetry` with its default parameter `maxRetries = 3`. -/
def sendTransactionWithRetryDefault (env : RetryEnv) (tx : TxState)
    (signers : List PublicKey) : List REvent × Except (Option String) String :=
  sendTransactionWithRetry env tx signers 3

/-- The submissions in a retry trace. -/
def sendsOf (evs : List REvent) : List (Nat × TxState) :=
  evs.filterMap fun e => match e with
    | .sent k tx => some (k, tx)
    | .waited _ _ => none

/-- The backoff waits (in milliseconds) in a retry trace, in order. -/
def waitsOf (evs : List REvent) : List Nat :=
  evs.filterMap fun e => match e with
    | .sent _ _ => none
    | .waited _ ms => some ms

/-- The loop of `executeWithRetry` (instructions.ts lines 602-619), recursion
on remaining iterations `r` with `i` the current index; returns the list of
waits performed (ms) and the result.  `env i` is what `operation()` does on
the `i`-th call. -/
def executeGo {α : Type} (env : Nat → Except String α) :
    Nat → Nat → Option String → List Nat × Except String α
  | _, 0, lastError => ([], .error (lastError.getD "Operation failed after retries"))
  | i, r + 1, _ =>
    match env i with
    | .ok v => ([], .ok v)
    | .error e =>
      let rest := executeGo env (i + 1) r (some e)
      (1000 * (i + 1) :: rest.1, rest.2)

/-- `executeWithRetry(operation, maxRetries)` (instructions.ts lines 602-619):
unlike `sendTransactionWithRetry`, the wait is inside the `catch` block with
no guard, so it runs after every failed attempt, the last one included, and
its duration is linear, `1000 * (i + 1)`. -/
def executeWithRetry {α : Type} (env : Nat → Except String α) (maxRetries : Nat) :
    List Nat × Except String α :=
  executeGo env 0 maxRetries none

/-- The backoff waits the claim attributes to a retry wrapper that makes
`maxRetries` consecutive failed attempts: one wait of
`min(1000 * 2^k, 10000)` ms after each failed attempt `k` that is followed by
another attempt, and none after the final attempt.  (Stated from the claim's
words, for comparison with the embedded wrappers.) -/
def claimedBackoffWaits (maxRetries : Nat) : List Nat :=
  (List.range (maxRetries - 1)).map fun k => min (1000 * 2 ^ k) 10000

/-! ## Error-message formatting shared by the catch blocks -/

/-- `error instanceof Error ? error.message : <default>`: `none` models a
thrown value that is not an `Error`. -/
def errMsgOr (default : String) : Option String → String
  | some m => m
  | none => default

/-- `error instanceof Error ? error.message : 'Unknown error'`. -/
def errMsg : Option String → String := errMsgOr "Unknown error"

/-! ## Batch freeze/thaw (`src/cli/src/instructions.ts`, lines 59-129, 327-334
and 395-479) -/

/-- A recorded per-account failure (`{ account, error }`). -/
structure BatchFailure where
  account : String
  error : String
deriving DecidableEq, Repr

/-- `BatchOperationResult` (instructions.ts lines 29-32). -/
structure BatchOperationResult where
  successes : List String
  failures : List BatchFailure
deriving DecidableEq, Repr

/-- The fields of a token account the embedded code reads
(`getAccount(...).amount` and `.isFrozen`). -/
structure TokenAccountInfo where
  amount : ℚ
  isFrozen : Bool
deriving DecidableEq, Repr

/-- Environment for the batch loops: per account, what `getAccount` returns,
what `this.sendTransactionWithRetry` does for the freeze (resp. thaw)
transaction of that account, and what the static variants'
`sendAndConfirmTransaction` does.  `Except.error none` models a thrown value
that is not an `Error`. -/
structure BatchEnv where
  getAccountR : PublicKey → Except (Option String) TokenAccountInfo
  sendFreezeTxR : PublicKey → Except (Option String) String
  sendThawTxR : PublicKey → Except (Option String) String
  sendConfirmFreezeR : PublicKey → Except (Option String) String
  sendConfirmThawR : PublicKey → Except (Option String) String

/-- `isAccountFrozen` (instructions.ts lines 327-334): reads
`getAccount(...).isFrozen`, wrapping any error. -/
def isAccountFrozen (env : BatchEnv) (account : PublicKey) : Except String Bool :=
  match env.getAccountR account with
  | .ok info => .ok info.isFrozen
  | .error e => .error ("Failed to check account freeze status: " ++ errMsg e)

/-- What one loop iteration records for an account. -/
inductive BatchOutcome
  | success (account : String)
  | failure (account error : String)
deriving DecidableEq, Repr

/-- Record an outcome in front of an aggregate result (the loop pushes the
current account's outcome before processing the remaining accounts). -/
def consOutcome : BatchOutcome → BatchOperationResult → BatchOperationResult
  | .success s, r => { r with successes := s :: r.successes }
  | .failure a e, r => { r with failures := ⟨a, e⟩ :: r.failures }

/-- Body of one iteration of the instance-method `batchFreezeAccounts` loop
(instructions.ts lines 405-433): check `isAccountFrozen`, skip with failure
`'Account is already frozen'` if it returns true, otherwise submit a freeze
transaction; any caught error becomes a failure entry.  The boolean records
whether a freeze transaction was submitted for the account. -/
def freezeStep (env : BatchEnv) (account : PublicKey) : BatchOutcome × Bool :=
  match isAccountFrozen env account with
  | .error e => (.failure account.toBase58 e, false)
  | .ok true => (.failure account.toBase58 "Account is already frozen", false)
  | .ok false =>
    match env.sendFreezeTxR account with
    | .ok _ => (.success account.toBase58, true)
    | .error e => (.failure account.toBase58 (errMsg e), true)

/-- Body of one iteration of the instance-method `batchThawAccounts` loop
(instructions.ts lines 448-476): skip with `'Account is not frozen'` if the
account is not frozen, otherwise submit a thaw transaction. -/
def thawStep (env : BatchEnv) (account : PublicKey) : BatchOutcome × Bool :=
  match isAccountFrozen env account with
  | .error e => (.failure account.toBase58 e, false)
  | .ok false => (.failure account.toBase58 "Account is not frozen", false)
  | .ok true =>
    match env.sendThawTxR account with
    | .ok _ => (.success account.toBase58, true)
    | .error e => (.failure account.toBase58 (errMsg e), true)

/-- Instance-method `batchFreezeAccounts` (instructions.ts lines 395-436):
per-item try/catch aggregation; also returns the list of accounts for which a
freeze transaction was submitted. -/
def batchFreezeAccounts (env : BatchEnv) :
    List PublicKey → BatchOperationResult × List PublicKey
  | [] => (⟨[], []⟩, [])
  | account :: rest =>
    let step := freezeStep env account
    let restR := batchFreezeAccounts env rest
    (consOutcome step.1 restR.1, (if step.2 then [account] else []) ++ restR.2)

/-- Instance-method `batchThawAccounts` (instructions.ts lines 438-479). -/
def batchThawAccounts (env : BatchEnv) :
    List PublicKey → BatchOperationResult × List PublicKey
  | [] => (⟨[], []⟩, [])
  | account :: rest =>
    let step := thawStep env account
    let restR := batchThawAccounts env rest
    (consOutcome step.1 restR.1, (if step.2 then [account] else []) ++ restR.2)

/-- The shared shape of the static batch loops (instructions.ts lines 59-129):
no frozen-state check, one `sendAndConfirmTransaction` per account inside
try/catch. -/
def batchLoopStatic (send : PublicKey → Except (Option String) String) :
    List PublicKey → BatchOperationResult
  | [] => ⟨[], []⟩
  | account :: rest =>
    let outcome :=
      match send account with
      | .ok _ => BatchOutcome.success account.toBase58
      | .error e => BatchOutcome.failure account.toBase58 (errMsg e)
    consOutcome outcome (batchLoopStatic send rest)

/-- Static `TokenInstructions.batchFreezeAccounts` (instructions.ts 59-93). -/
def batchFreezeAccountsStatic (env : BatchEnv) (accounts : List PublicKey) :
    BatchOperationResult :=
  batchLoopStatic env.sendConfirmFreezeR accounts

/-- Static `TokenInstructions.batchThawAccounts` (instructions.ts 95-129). -/
def batchThawAccountsStatic (env : BatchEnv) (accounts : List PublicKey) :
    BatchOperationResult :=
  batchLoopStatic env.sendConfirmThawR accounts

/-- `true` iff the given `Except` is `ok`. -/
def exceptOk {ε α : Type} : Except ε α → Bool
  | .ok _ => true
  | .error _ => false

/-- Whether the instance freeze loop records the account as a success:
check returned `ok false` and the freeze submission succeeded. -/
def freezeSucceeds (env : BatchEnv) (a : PublicKey) : Bool :=
  match isAccountFrozen env a with
  | .ok false => exceptOk (env.sendFreezeTxR a)
  | _ => false

/-- Whether the instance thaw loop records the account as a success. -/
def thawSucceeds (env : BatchEnv) (a : PublicKey) : Bool :=
  match isAccountFrozen env a with
  | .ok true => exceptOk (env.sendThawTxR a)
  | _ => false

/-- Whether a static batch iteration records the account as a success. -/
def staticSucceeds (send : PublicKey → Except (Option String) String)
    (a : PublicKey) : Bool :=
  exceptOk (send a)

/-! ## Token operations (`src/cli/src/instructions.ts`, lines 188-351 and
481-599) -/

/-- `AuthorityType` values this code uses. -/
inductive AuthorityType
  | MintTokens
  | FreezeAccount
deriving DecidableEq, Repr

/-- The fields of `getMint`'s result the embedded code reads. -/
structure MintInfo where
  mintAuthority : Option PublicKey
  freezeAuthority : Option PublicKey
  decimals : Nat
deriving DecidableEq, Repr

/-- Modelled from the spec: the associated token account, "a deterministic
per-owner-per-mint account address computed by the SDK's
program-derived-address routine, not by this repository" (spec glossary).
The routine itself is not in `src/`, so it is embedded as an explicit
deterministic function of owner and mint. -/
def associatedTokenAddress (owner mint : PublicKey) : PublicKey :=
  ⟨"ata:" ++ owner.b58 ++ ":" ++ mint.b58⟩

/-- One SDK call performed by a token operation. -/
inductive TokenCall
  | getMintCall (mint : PublicKey)
  | ataCall (mint owner : PublicKey)
  | getAccountCall (account : PublicKey)
  | transferCall (source dest : PublicKey) (rawAmount : ℚ)
  | burnCall (account mint : PublicKey) (rawAmount : ℚ)
  | mintToCall (mint dest : PublicKey) (rawAmount : ℚ)
  | setAuthorityCall (mint : PublicKey) (authorityType : AuthorityType)
      (newAuthority : Option PublicKey)
deriving DecidableEq, Repr

/-- A call that submits a state-changing transaction to the chain. -/
def isSubmitCall : TokenCall → Bool
  | .transferCall .. => true
  | .burnCall .. => true
  | .mintToCall .. => true
  | .setAuthorityCall .. => true
  | _ => false

/-- Environment for the token operations: results of the SDK calls.
Amounts are ℚ (exact arithmetic); `Except.error none` models a thrown
non-`Error` value. -/
structure TokenEnv where
  getMintR : PublicKey → Except (Option String) MintInfo
  ataR : PublicKey → PublicKey → Except (Option String) Unit
  getAccountAmount : PublicKey → Except (Option String) ℚ
  transferR : Except (Option String) String
  burnR : Except (Option String) String
  mintToR : Except (Option String) String
  setAuthorityR : Except (Option String) String

/-- `amount * Math.pow(10, decimals)`: user amount to raw units
(used identically in `transfer`, `burn`, `mintMoreTokens`). -/
def uiToRaw (decimals : Nat) (amount : ℚ) : ℚ := amount * 10 ^ decimals

/-- `Number(accountInfo.amount) / Math.pow(10, decimals)`: raw balance back
to a user amount (`getTokenBalance`). -/
def rawToUi (decimals : Nat) (raw : ℚ) : ℚ := raw / 10 ^ decimals

/-- `getOrCreateAssociatedTokenAccount(connection, payer, mint, owner)`:
on success the SDK yields the account at the deterministic associated token
address of (owner, mint). -/
def getOrCreateATA (env : TokenEnv) (mint owner : PublicKey) :
    List TokenCall × Except (Option String) PublicKey :=
  ([.ataCall mint owner],
   match env.ataR mint owner with
   | .ok _ => .ok (associatedTokenAddress owner mint)
   | .error e => .error e)

/-- `transfer` (instructions.ts lines 232-268): resolve the payer's source
account and the recipient's destination account, read the mint's decimals,
convert the amount, call the SDK `transfer`; the catch rethrows the message
(default `'Failed to transfer tokens'`). -/
def transfer (env : TokenEnv) (payer mint recipient : PublicKey) (amount : ℚ) :
    List TokenCall × Except String String :=
  let src := getOrCreateATA env mint payer
  match src.2 with
  | .error e => (src.1, .error (errMsgOr "Failed to transfer tokens" e))
  | .ok sourceAddr =>
    let dst := getOrCreateATA env mint recipient
    match dst.2 with
    | .error e => (src.1 ++ dst.1, .error (errMsgOr "Failed to transfer tokens" e))
    | .ok destAddr =>
      match env.getMintR mint with
      | .error e =>
        (src.1 ++ dst.1 ++ [.getMintCall mint],
         .error (errMsgOr "Failed to transfer tokens" e))
      | .ok info =>
        let rawAmount := uiToRaw info.decimals amount
        (src.1 ++ dst.1 ++ [.getMintCall mint, .transferCall sourceAddr destAddr rawAmount],
         match env.transferR with
         | .ok sig => .ok sig
         | .error e => .error (errMsgOr "Failed to transfer tokens" e))

/-- `burn` (instructions.ts lines 270-298). -/
def burn (env : TokenEnv) (payer mint : PublicKey) (amount : ℚ) :
    List TokenCall × Except String String :=
  let ata := getOrCreateATA env mint payer
  match ata.2 with
  | .error e => (ata.1, .error (errMsgOr "Failed to burn tokens" e))
  | .ok tokenAccount =>
    match env.getMintR mint with
    | .error e =>
      (ata.1 ++ [.getMintCall mint], .error (errMsgOr "Failed to burn tokens" e))
    | .ok info =>
      let rawAmount := uiToRaw info.decimals amount
      (ata.1 ++ [.getMintCall mint, .burnCall tokenAccount mint rawAmount],
       match env.burnR with
       | .ok sig => .ok sig
       | .error e => .error (errMsgOr "Failed to burn tokens" e))

/-- `getTokenBalance` (instructions.ts lines 300-325): resolve the payer's
associated token account, read its raw amount, divide by `10^decimals`. -/
def getTokenBalance (env : TokenEnv) (payer mint : PublicKey) :
    List TokenCall × Except String ℚ :=
  let ata := getOrCreateATA env mint payer
  match ata.2 with
  | .error e => (ata.1, .error ("Failed to get token balance: " ++ errMsg e))
  | .ok tokenAccount =>
    match env.getAccountAmount tokenAccount with
    | .error e =>
      (ata.1 ++ [.getAccountCall tokenAccount],
       .error ("Failed to get token balance: " ++ errMsg e))
    | .ok amt =>
      match env.getMintR mint with
      | .error e =>
        (ata.1 ++ [.getAccountCall tokenAccount, .getMintCall mint],
         .error ("Failed to get token balance: " ++ errMsg e))
      | .ok info =>
        (ata.1 ++ [.getAccountCall tokenAccount, .getMintCall mint],
         .ok (rawToUi info.decimals amt))

/-- `mintMoreTokens` (instructions.ts lines 481-520): fetch the mint, verify
the supplied keypair against `mintInfo.mintAuthority` before anything else,
then resolve the payer's token account and call `mintTo`. -/
def mintMoreTokens (env : TokenEnv) (payer mint : PublicKey) (amount : ℚ)
    (mintAuthority : PublicKey) : List TokenCall × Except String String :=
  match env.getMintR mint with
  | .error e => ([.getMintCall mint], .error ("Failed to mint tokens: " ++ errMsg e))
  | .ok info =>
    if info.mintAuthority = some mintAuthority then
      let ata := getOrCreateATA env mint payer
      match ata.2 with
      | .error e =>
        (.getMintCall mint :: ata.1, .error ("Failed to mint tokens: " ++ errMsg e))
      | .ok tokenAccount =>
        let rawAmount := uiToRaw info.decimals amount
        (.getMintCall mint :: ata.1 ++ [.mintToCall mint tokenAccount rawAmount],
         match env.mintToR with
         | .ok sig => .ok sig
         | .error e => .error ("Failed to mint tokens: " ++ errMsg e))
    else
      ([.getMintCall mint],
       .error "Failed to mint tokens: Provided keypair is not the mint authority")

/-- `disableMinting` (instructions.ts lines 522-549): verify the mint
authority, then `setAuthority(..., AuthorityType.MintTokens, null)`. -/
def disableMinting (env : TokenEnv) (mint : PublicKey) (mintAuthority : PublicKey) :
    List TokenCall × Except String String :=
  match env.getMintR mint with
  | .error e => ([.getMintCall mint], .error ("Failed to disable minting: " ++ errMsg e))
  | .ok info =>
    if info.mintAuthority = some mintAuthority then
      ([.getMintCall mint, .setAuthorityCall mint .MintTokens none],
       match env.setAuthorityR with
       | .ok sig => .ok sig
       | .error e => .error ("Failed to disable minting: " ++ errMsg e))
    else
      ([.getMintCall mint],
       .error "Failed to disable minting: Provided keypair is not the mint authority")

/-- `verifyAuthority` (instructions.ts lines 336-351): compare the supplied
key with the mint's current mint (resp. freeze) authority;
`?.equals(...) || false`. -/
def verifyAuthority (env : TokenEnv) (mint authority : PublicKey)
    (authorityType : String) : List TokenCall × Except String Bool :=
  ([.getMintCall mint],
   match env.getMintR mint with
   | .ok info =>
     if authorityType = "mint" then
       .ok (decide (info.mintAuthority = some authority))
     else
       .ok (decide (info.freezeAuthority = some authority))
   | .error e =>
     .error ("Failed to verify " ++ authorityType ++ " authority: " ++ errMsg e))

/-- `updateMintAuthority` (instructions.ts lines 551-574): throw
`'Invalid mint authority'` unless `verifyAuthority` returns true, then
`setAuthority(..., AuthorityType.MintTokens, newAuthority || null)`. -/
def updateMintAuthority (env : TokenEnv) (mint currentAuthority : PublicKey)
    (newAuthority : Option PublicKey) : List TokenCall × Except String String :=
  let v := verifyAuthority env mint currentAuthority "mint"
  match v.2 with
  | .error e => (v.1, .error ("Failed to update mint authority: " ++ e))
  | .ok false => (v.1, .error "Failed to update mint authority: Invalid mint authority")
  | .ok true =>
    (v.1 ++ [.setAuthorityCall mint .MintTokens newAuthority],
     match env.setAuthorityR with
     | .ok sig => .ok sig
     | .error e => .error ("Failed to update mint authority: " ++ errMsg e))

/-- `updateFreezeAuthority` (instructions.ts lines 576-599). -/
def updateFreezeAuthority (env : TokenEnv) (mint currentAuthority : PublicKey)
    (newAuthority : Option PublicKey) : List TokenCall × Except String String :=
  let v := verifyAuthority env mint currentAuthority "freeze"
  match v.2 with
  | .error e => (v.1, .error ("Failed to update freeze authority: " ++ e))
  | .ok false => (v.1, .error "Failed to update freeze authority: Invalid freeze authority")
  | .ok true =>
    (v.1 ++ [.setAuthorityCall mint .FreezeAccount newAuthority],
     match env.setAuthorityR with
     | .ok sig => .ok sig
     | .error e => .error ("Failed to update freeze authority: " ++ errMsg e))

/-! ## Metadata layer (`src/unnamed/part_001`, `MetadataManager`) -/

/-- `TokenMetadata` (part_001 lines 20-26). -/
structure TokenMetadata where
  name : String
  symbol : String
  uri : String
  sellerFeeBasisPoints : Option Nat
  creators : Option (List String)
deriving DecidableEq, Repr

/-- The `DataV2` record the code builds (part_001 lines 178-186);
`collection` and `uses` are always `null` here. -/
structure DataV2 where
  name : String
  symbol : String
  uri : String
  sellerFeeBasisPoints : Nat
  creators : Option (List String)
  collection : Option Unit
  uses : Option Unit
deriving DecidableEq, Repr

/-- The `DataV2` built from a `TokenMetadata`
(`sellerFeeBasisPoints || 0`, `creators || null`). -/
def dataV2Of (md : TokenMetadata) : DataV2 :=
  { name := md.name, symbol := md.symbol, uri := md.uri,
    sellerFeeBasisPoints := md.sellerFeeBasisPoints.getD 0,
    creators := md.creators, collection := none, uses := none }

/-- Modelled from the spec: the metadata account address, derived by the
SDK's `PublicKey.findProgramAddressSync(['metadata', programId, mint])` —
a deterministic program-derived address of the mint; the derivation itself is
not in `src/`, so it is embedded as an explicit deterministic function. -/
def metadataPDA (mint : PublicKey) : PublicKey := ⟨"metadata:" ++ mint.b58⟩

/-- The two instructions `setMetadata` can build (part_001 lines 188-218),
with the account and argument fields the code fills in. -/
inductive MetaInstr
  | updateV2 (metadata updateAuthority : PublicKey) (data : DataV2)
      (primarySaleHappened isMutable : Bool)
  | createV3 (metadata mint mintAuthority payer updateAuthority : PublicKey)
      (data : DataV2) (isMutable : Bool)
deriving DecidableEq, Repr

/-- Environment for `setMetadata`: whether `getAccountInfo(metadataAddress)`
is non-null, and what `sendAndConfirmTransaction` does. -/
structure MetaEnv where
  accountExists : PublicKey → Bool
  sendConfirm : Except (Option String) String

/-- `MetadataManager.setMetadata` (part_001 lines 159-232): derive the
metadata PDA, check whether the account exists, build an update instruction
if it does and a create instruction otherwise, and send the transaction. -/
def setMetadata (env : MetaEnv) (mint : PublicKey) (metadata : TokenMetadata)
    (payer : PublicKey) : MetaInstr × Except String String :=
  let metadataAddress := metadataPDA mint
  let isUpdate := env.accountExists metadataAddress
  let data := dataV2Of metadata
  let instruction :=
    if isUpdate then
      MetaInstr.updateV2 metadataAddress payer data true true
    else
      MetaInstr.createV3 metadataAddress mint payer payer payer data true
  (instruction,
   match env.sendConfirm with
   | .ok sig => .ok sig
   | .error e =>
     .error ("Failed to " ++ (if isUpdate then "update" else "create") ++
       " metadata: " ++ errMsg e))

/-- `MetadataManager.createMetadata` (part_001 lines 234-240): delegates
unchanged to `setMetadata`. -/
def createMetadata (env : MetaEnv) (mint : PublicKey) (metadata : TokenMetadata)
    (payer : PublicKey) : MetaInstr × Except String String :=
  setMetadata env mint metadata payer

/-- `MetadataManager.updateMetadata` (part_001 lines 242-248): delegates
unchanged to `setMetadata`. -/
def updateMetadata (env : MetaEnv) (mint : PublicKey) (metadata : TokenMetadata)
    (payer : PublicKey) : MetaInstr × Except String String :=
  setMetadata env mint metadata payer

/-! ## Config/env loader (`src/cli/src/config.ts`) -/

/-- The environment variables `config.ts` and `.env.example` mention that are
relevant to the claims (`none` = unset). -/
structure EnvVars where
  solanaNetwork : Option String
  solanaRpcUrl : Option String
  rpcUrlVar : Option String
  walletPathVar : Option String
  mainnetMinBalance : Option String
  mainnetWarningThreshold : Option String
  mainnetMaxRetries : Option String
deriving Repr

/-- JavaScript `v || d` on an environment string: unset and the empty string
are falsy. -/
def jsOr (v : Option String) (d : String) : String :=
  match v with
  | some s => if s = "" then d else s
  | none => d

/-- `clusterApiUrl` from `@solana/web3.js` (SDK, not this repository): the
public per-network default RPC endpoint. -/
def clusterApiUrl (cluster : String) : String :=
  "https://api." ++ cluster ++ ".solana.com"

/-- `NetworkConfig` (config.ts lines 35-38). -/
structure NetworkConfig where
  endpoint : String
  commitment : String
deriving DecidableEq, Repr

/-- `getNetworkConfig(network)` (config.ts lines 40-46): validate the network
name (anything unrecognized falls back to `'devnet'`) and take the endpoint
from `RPC_URL` when set, else the per-network default. -/
def getNetworkConfig (env : EnvVars) (network : String) : NetworkConfig :=
  let validNetwork :=
    if network = "mainnet-beta" ∨ network = "devnet" ∨ network = "testnet" then
      network
    else
      "devnet"
  { endpoint := jsOr env.rpcUrlVar (clusterApiUrl validNetwork),
    commitment := "confirmed" }

/-- `getNetworkConfig` with its default parameter `network = 'devnet'`. -/
def getNetworkConfigDefault (env : EnvVars) : NetworkConfig :=
  getNetworkConfig env "devnet"

/-- `config.mainnet` (config.ts lines 66-71). -/
structure MainnetSettings where
  confirmations : Nat
  minBalance : ℚ
  warningThreshold : ℚ
  maxRetries : Nat
deriving DecidableEq, Repr

/-- The claim-relevant fields of `Config` (config.ts lines 7-27). -/
structure Config where
  network : String
  walletPath : String
  rpcUrl : String
  mainnet : MainnetSettings
deriving DecidableEq, Repr

/-- The `config` constant (config.ts lines 48-72) as a function of the
process environment.  Note the `mainnet` block: its values are numeric
literals in the source (`0.1`, `0.5`, `3`), with no read of
`MAINNET_MIN_BALANCE`, `MAINNET_WARNING_THRESHOLD` or `MAINNET_MAX_RETRIES`. -/
def config (env : EnvVars) : Config :=
  { network := jsOr env.solanaNetwork "devnet",
    walletPath := jsOr env.walletPathVar "~/.config/solana/my-token-wallet.json",
    rpcUrl := jsOr env.solanaRpcUrl
      (if env.solanaNetwork = some "mainnet-beta" then
        "https://api.mainnet-beta.solana.com"
      else
        "https://api.devnet.solana.com"),
    mainnet :=
      { confirmations := 20, minBalance := 1 / 10, warningThreshold := 1 / 2,
        maxRetries := 3 } }

/-- An environment that sets the mainnet safety variables documented in
`.env.example` to non-default values. -/
def envMainnetTuned : EnvVars :=
  { solanaNetwork := some "mainnet-beta", solanaRpcUrl := none, rpcUrlVar := none,
    walletPathVar := none, mainnetMinBalance := some "0.2",
    mainnetWarningThreshold := some "0.9", mainnetMaxRetries := some "7" }

/-! ### Concrete data used to exercise the embeddings -/

/-- A concrete payer public key. -/
def pkA : PublicKey := ⟨"PayerPubkey1111111111111111111111"⟩

/-- A concrete freeze-authority public key. -/
def pkB : PublicKey := ⟨"FreezeAuth11111111111111111111111"⟩

/-- An initial transaction state (nothing set, unsigned). -/
def tx0 : TxState := ⟨none, none, []⟩

/-- A retry environment where attempt 0 fails and every later attempt
succeeds with signature `"sig42"`. -/
def cenvOk : RetryEnv :=
  ⟨fun k => 100 + k, fun k => 200 + k,
   fun k => if k = 0 then .error "blockhash not found" else .ok "sig42"⟩

/-- A retry environment where every attempt fails. -/
def cenvFail : RetryEnv :=
  ⟨fun k => 100 + k, fun k => 200 + k, fun _ => .error "insufficient funds"⟩

/-- A concrete frozen token account. -/
def pkC : PublicKey := ⟨"FrozenAcct1111111111111111111111"⟩

/-- A concrete non-frozen token account. -/
def pkD : PublicKey := ⟨"LiquidAcct1111111111111111111111"⟩

/-- A concrete mint address. -/
def pkMint : PublicKey := ⟨"Mint1111111111111111111111111111"⟩

/-- A concrete transfer recipient. -/
def pkRecipient : PublicKey := ⟨"Recipient11111111111111111111111"⟩

/-- A concrete key that holds no authority over `pkMint`. -/
def pkOther : PublicKey := ⟨"OtherKey111111111111111111111111"⟩

/-- A concrete batch environment: `pkC` is frozen, `pkD` is not, every other
account lookup fails; all submissions succeed. -/
def cbatchEnv : BatchEnv :=
  { getAccountR := fun a =>
      if a = pkC then .ok ⟨5, true⟩
      else if a = pkD then .ok ⟨7, false⟩
      else .error (some "could not find account"),
    sendFreezeTxR := fun _ => .ok "freezesig",
    sendThawTxR := fun _ => .ok "thawsig",
    sendConfirmFreezeR := fun _ => .ok "sfreezesig",
    sendConfirmThawR := fun _ => .ok "sthawsig" }

/-- A concrete token environment: `pkMint` has mint authority `pkA`, freeze
authority `pkB` and 2 decimals; the payer's associated account holds 300 raw
units; every SDK submission succeeds. -/
def cTokenEnv : TokenEnv :=
  { getMintR := fun m =>
      if m = pkMint then .ok ⟨some pkA, some pkB, 2⟩ else .error (some "mint not found"),
    ataR := fun _ _ => .ok (),
    getAccountAmount := fun a =>
      if a = associatedTokenAddress pkA pkMint then .ok 300
      else .error (some "account does not exist"),
    transferR := .ok "transfersig",
    burnR := .ok "burnsig",
    mintToR := .ok "mintsig",
    setAuthorityR := .ok "authsig" }

/-- A concrete metadata environment: only `pkMint`'s metadata PDA exists. -/
def cMetaEnv : MetaEnv :=
  { accountExists := fun a => decide (a = metadataPDA pkMint),
    sendConfirm := .ok "metasig" }

/-- Concrete token metadata. -/
def cmd0 : TokenMetadata :=
  ⟨"MyToken", "MTK", "https://example.com/meta.json", some 100, none⟩

/-! ## Helper lemmas and claim theorems -/

lemma waitsOf_nil : waitsOf [] = [] := rfl

lemma waitsOf_cons_sent (k : Nat) (tx : TxState) (l : List REvent) :
    waitsOf (REvent.sent k tx :: l) = waitsOf l := by simp [waitsOf]

lemma waitsOf_cons_waited (k ms : Nat) (l : List REvent) :
    waitsOf (REvent.waited k ms :: l) = ms :: waitsOf l := by simp [waitsOf]

lemma waitsOf_append (l1 l2 : List REvent) :
    waitsOf (l1 ++ l2) = waitsOf l1 ++ waitsOf l2 := by simp [waitsOf]

lemma sendsOf_cons_sent (k : Nat) (tx : TxState) (l : List REvent) :
    sendsOf (REvent.sent k tx :: l) = (k, tx) :: sendsOf l := by simp [sendsOf]

lemma sendsOf_cons_waited (k ms : Nat) (l : List REvent) :
    sendsOf (REvent.waited k ms :: l) = sendsOf l := by simp [sendsOf]

lemma sendsOf_append (l1 l2 : List REvent) :
    sendsOf (l1 ++ l2) = sendsOf l1 ++ sendsOf l2 := by simp [sendsOf]

lemma signAll_eq (l : List PublicKey) : ∀ tx : TxState,
    signAll tx l = { tx with signatures := tx.signatures ++ l } := by
  induction l with
  | nil => intro tx; simp [signAll]
  | cons s rest ih => intro tx; rw [signAll, ih]; simp

lemma prepareTx_eq (env : RetryEnv) (tx : TxState) (signers : List PublicKey) (k : Nat) :
    prepareTx env tx signers k =
      ⟨some (env.blockhash k), some (env.lastValidHeight k), signers⟩ := by
  simp [prepareTx, signAll_eq]

lemma sendTxRetryGo_ok_step (env : RetryEnv) (signers : List PublicKey) (m a r : Nat)
    (tx : TxState) (le : Option String) (s : String) (hok : env.sendResult a = .ok s) :
    sendTxRetryGo env signers m a (r + 1) tx le =
      ([.sent a (prepareTx env tx signers a)], .ok s) := by
  simp [sendTxRetryGo, hok]

lemma sendTxRetryGo_error_step (env : RetryEnv) (signers : List PublicKey) (m a r : Nat)
    (tx : TxState) (le : Option String) (e : String) (he : env.sendResult a = .error e) :
    sendTxRetryGo env signers m a (r + 1) tx le =
      (REvent.sent a (prepareTx env tx signers a) ::
        ((if a < m - 1 then [REvent.waited a (min (1000 * 2 ^ a) 10000)] else []) ++
          (sendTxRetryGo env signers m (a + 1) r (prepareTx env tx signers a) (some e)).1),
       (sendTxRetryGo env signers m (a + 1) r (prepareTx env tx signers a) (some e)).2) := by
  by_cases hc : a < m - 1 <;> simp [sendTxRetryGo, he, hc]

lemma sendTxRetryGo_sends_le (env : RetryEnv) (signers : List PublicKey) (m : Nat) :
    ∀ r a tx le, (sendsOf (sendTxRetryGo env signers m a r tx le).1).length ≤ r := by
  intro r
  induction r with
  | zero => intro a tx le; simp [sendTxRetryGo, sendsOf]
  | succ n ih =>
    intro a tx le
    cases h : env.sendResult a with
    | ok s => simp [sendTxRetryGo_ok_step env signers m a n tx le s h, sendsOf]
    | error e =>
      rw [sendTxRetryGo_error_step env signers m a n tx le e h]
      by_cases hc : a < m - 1 <;>
        simpa [hc, sendsOf] using ih (a + 1) _ (some e)

lemma sendTxRetryGo_ok (env : RetryEnv) (signers : List PublicKey) (m : Nat) :
    ∀ r a tx le k s, a ≤ k → k < a + r → env.sendResult k = .ok s →
      (∀ j, a ≤ j → j < k → ∃ e, env.sendResult j = .error e) →
      (sendTxRetryGo env signers m a r tx le).2 = .ok s := by
  intro r
  induction r with
  | zero => intro a tx le k s hak hkr _ _; omega
  | succ n ih =>
    intro a tx le k s hak hkr hok hfail
    rcases Nat.eq_or_lt_of_le hak with heq | hlt
    · subst heq
      simp [sendTxRetryGo_ok_step env signers m a n tx le s hok]
    · obtain ⟨e, he⟩ := hfail a le_rfl hlt
      rw [sendTxRetryGo_error_step env signers m a n tx le e he]
      exact ih (a + 1) _ (some e) k s hlt (by omega) hok
        (fun j hj hjk => hfail j (by omega) hjk)

lemma sendTxRetryGo_err (env : RetryEnv) (signers : List PublicKey) (m : Nat) :
    ∀ r a tx le e, 0 < r →
      (∀ j, a ≤ j → j < a + r → ∃ e', env.sendResult j = .error e') →
      env.sendResult (a + r - 1) = .error e →
      (sendTxRetryGo env signers m a r tx le).2 = .error (some e) := by
  intro r
  induction r with
  | zero => intro a tx le e h; omega
  | succ n ih =>
    intro a tx le e _ hfail hlast
    obtain ⟨e0, he0⟩ := hfail a le_rfl (by omega)
    rw [sendTxRetryGo_error_step env signers m a n tx le e0 he0]
    cases n with
    | zero =>
      have he : e0 = e := by
        have h1 := hlast
        simp only [Nat.add_sub_cancel] at h1
        rw [he0] at h1
        exact (Except.error.injEq _ _).mp h1
      subst he
      simp [sendTxRetryGo]
    | succ k =>
      exact ih (a + 1) (prepareTx env tx signers a) (some e0) e (by omega)
        (fun j hj hjr => hfail j (by omega) (by omega))
        (by have h2 : a + 1 + (k + 1) - 1 = a + (k + 1 + 1) - 1 := by omega
            rw [h2]; exact hlast)

lemma sendTxRetryGo_sent (env : RetryEnv) (signers : List PublicKey) (m : Nat) :
    ∀ r a tx le k tx', REvent.sent k tx' ∈ (sendTxRetryGo env signers m a r tx le).1 →
      tx' = ⟨some (env.blockhash k), some (env.lastValidHeight k), signers⟩ := by
  intro r
  induction r with
  | zero => intro a tx le k tx' h; simp [sendTxRetryGo] at h
  | succ n ih =>
    intro a tx le k tx' h
    cases hs : env.sendResult a with
    | ok s =>
      rw [sendTxRetryGo_ok_step env signers m a n tx le s hs] at h
      simp only [List.mem_singleton, REvent.sent.injEq] at h
      obtain ⟨hk, htx⟩ := h
      subst hk
      rw [htx, prepareTx_eq]
    | error e =>
      rw [sendTxRetryGo_error_step env signers m a n tx le e hs] at h
      simp only [List.mem_cons, List.mem_append] at h
      rcases h with h | h | h
      · injection h with hk htx
        subst hk
        rw [htx, prepareTx_eq]
      · by_cases hc : a < m - 1 <;> simp [hc] at h
      · exact ih (a + 1) _ (some e) k tx' h

lemma sendTxRetryGo_waits_err (env : RetryEnv) (signers : List PublicKey) (m : Nat) :
    ∀ r a tx le, a + r = m →
      (∀ j, a ≤ j → j < a + r → ∃ e', env.sendResult j = .error e') →
      waitsOf (sendTxRetryGo env signers m a r tx le).1 =
        (List.range' a (r - 1)).map fun k => min (1000 * 2 ^ k) 10000 := by
  intro r
  induction r with
  | zero => intro a tx le _ _; simp [sendTxRetryGo, waitsOf]
  | succ n ih =>
    intro a tx le hm hfail
    obtain ⟨e0, he0⟩ := hfail a le_rfl (by omega)
    rw [sendTxRetryGo_error_step env signers m a n tx le e0 he0]
    have hrec := ih (a + 1) (prepareTx env tx signers a) (some e0) (by omega)
      (fun j hj hjr => hfail j (by omega) (by omega))
    cases n with
    | zero =>
      have hc : ¬ a < m - 1 := by omega
      simp [sendTxRetryGo, hc, waitsOf]
    | succ k =>
      have hc : a < m - 1 := by omega
      rw [waitsOf_cons_sent, waitsOf_append]
      simp only [hc, if_true, waitsOf_cons_waited, waitsOf_nil]
      rw [hrec]
      simp only [Nat.add_sub_cancel, Nat.succ_sub_one]
      rw [List.range'_succ]
      simp

lemma sendTxRetryGo_waits_ok (env : RetryEnv) (signers : List PublicKey) (m : Nat) :
    ∀ r a tx le k s, a ≤ k → k < a + r → a + r = m → env.sendResult k = .ok s →
      (∀ j, a ≤ j → j < k → ∃ e', env.sendResult j = .error e') →
      waitsOf (sendTxRetryGo env signers m a r tx le).1 =
        (List.range' a (k - a)).map fun j => min (1000 * 2 ^ j) 10000 := by
  intro r
  induction r with
  | zero => intro a tx le k s hak hkr _ _ _; omega
  | succ n ih =>
    intro a tx le k s hak hkr hm hok hfail
    rcases Nat.eq_or_lt_of_le hak with heq | hlt
    · subst heq
      rw [sendTxRetryGo_ok_step env signers m a n tx le s hok]
      simp [waitsOf]
    · obtain ⟨e0, he0⟩ := hfail a le_rfl hlt
      have hc : a < m - 1 := by omega
      rw [sendTxRetryGo_error_step env signers m a n tx le e0 he0]
      have hrec := ih (a + 1) (prepareTx env tx signers a) (some e0) k s hlt (by omega)
        (by omega) hok (fun j hj hjk => hfail j (by omega) hjk)
      rw [waitsOf_cons_sent, waitsOf_append]
      simp only [hc, if_true, waitsOf_cons_waited, waitsOf_nil]
      rw [hrec]
      have hka : k - a = (k - (a + 1)) + 1 := by omega
      rw [hka, List.range'_succ]
      simp

lemma executeGo_ok {α : Type} (env : Nat → Except String α) :
    ∀ r i le k s, i ≤ k → k < i + r → env k = .ok s →
      (∀ j, i ≤ j → j < k → ∃ e, env j = .error e) →
      (executeGo env i r le).2 = .ok s := by
  intro r
  induction r with
  | zero => intro i le k s hik hkr _ _; omega
  | succ n ih =>
    intro i le k s hik hkr hok hfail
    rcases Nat.eq_or_lt_of_le hik with heq | hlt
    · subst heq
      simp [executeGo, hok]
    · obtain ⟨e, he⟩ := hfail i le_rfl hlt
      simp only [executeGo, he]
      exact ih (i + 1) (some e) k s hlt (by omega) hok
        (fun j hj hjk => hfail j (by omega) hjk)

lemma executeGo_err {α : Type} (env : Nat → Except String α) :
    ∀ r i le e, 0 < r →
      (∀ j, i ≤ j → j < i + r → ∃ e', env j = .error e') →
      env (i + r - 1) = .error e →
      (executeGo env i r le).2 = .error e := by
  intro r
  induction r with
  | zero => intro i le e h; omega
  | succ n ih =>
    intro i le e _ hfail hlast
    obtain ⟨e0, he0⟩ := hfail i le_rfl (by omega)
    cases n with
    | zero =>
      have : e0 = e := by
        have := hlast
        simp only [Nat.add_sub_cancel] at this
        rw [he0] at this
        exact (Except.error.injEq _ _).mp this
      subst this
      simp [executeGo, he0, Option.getD]
    | succ k =>
      simp only [executeGo, he0]
      exact ih (i + 1) (some e0) e (by omega)
        (fun j hj hjr => hfail j (by omega) (by omega))
        (by have : i + 1 + (k + 1) - 1 = i + (k + 1 + 1) - 1 := by omega
            rw [this]; exact hlast)

lemma executeGo_waits_err {α : Type} (env : Nat → Except String α) :
    ∀ r i le, (∀ j, i ≤ j → j < i + r → ∃ e', env j = .error e') →
      (executeGo env i r le).1 = (List.range' i r).map fun j => 1000 * (j + 1) := by
  intro r
  induction r with
  | zero => intro i le _; simp [executeGo]
  | succ n ih =>
    intro i le hfail
    obtain ⟨e0, he0⟩ := hfail i le_rfl (by omega)
    simp only [executeGo, he0]
    rw [List.range'_succ]
    simp only [List.map_cons]
    congr 1
    exact ih (i + 1) (some e0) (fun j hj hjr => hfail j (by omega) (by omega))

lemma executeGo_waits_ok {α : Type} (env : Nat → Except String α) :
    ∀ r i le k s, i ≤ k → k < i + r → env k = .ok s →
      (∀ j, i ≤ j → j < k → ∃ e', env j = .error e') →
      (executeGo env i r le).1 = (List.range' i (k - i)).map fun j => 1000 * (j + 1) := by
  intro r
  induction r with
  | zero => intro i le k s hik hkr _ _; omega
  | succ n ih =>
    intro i le k s hik hkr hok hfail
    rcases Nat.eq_or_lt_of_le hik with heq | hlt
    · subst heq
      simp [executeGo, hok]
    · obtain ⟨e0, he0⟩ := hfail i le_rfl hlt
      simp only [executeGo, he0]
      have hrec := ih (i + 1) (some e0) k s hlt (by omega) hok
        (fun j hj hjk => hfail j (by omega) hjk)
      rw [hrec]
      have hki : k - i = (k - (i + 1)) + 1 := by omega
      rw [hki, List.range'_succ]
      simp

/-- C1: for every transaction and list of signers, `sendTransactionWithRetry`
makes at most `maxRetries` attempts (and its default for `maxRetries` is 3);
it returns the signature of the first attempt that succeeds, and if every
attempt fails it throws the error raised by the last attempt. -/
theorem claim_C1_sendTransactionWithRetry_retries (env : RetryEnv) (tx : TxState)
    (signers : List PublicKey) (maxRetries : Nat) :
    (sendsOf (sendTransactionWithRetry env tx signers maxRetries).1).length ≤ maxRetries ∧
    (∀ k s, k < maxRetries → env.sendResult k = .ok s →
      (∀ j, j < k → ∃ e, env.sendResult j = .error e) →
      (sendTransactionWithRetry env tx signers maxRetries).2 = .ok s) ∧
    (∀ e, 0 < maxRetries →
      (∀ j, j < maxRetries → ∃ e', env.sendResult j = .error e') →
      env.sendResult (maxRetries - 1) = .error e →
      (sendTransactionWithRetry env tx signers maxRetries).2 = .error (some e)) ∧
    sendTransactionWithRetryDefault env tx signers = sendTransactionWithRetry env tx signers 3 := by
  refine ⟨sendTxRetryGo_sends_le env signers maxRetries maxRetries 0 tx none, ?_, ?_, rfl⟩
  · intro k s hk hok hfail
    exact sendTxRetryGo_ok env signers maxRetries maxRetries 0 tx none k s (Nat.zero_le k)
      (by omega) hok (fun j _ hjk => hfail j hjk)
  · intro e hpos hfail hlast
    exact sendTxRetryGo_err env signers maxRetries maxRetries 0 tx none e hpos
      (fun j _ hj => hfail j (by omega)) (by simpa using hlast)

/-- Witness for C1 at concrete inputs: with attempt 0 failing and attempt 1
succeeding the wrapper returns `"sig42"`; with every attempt failing it
throws the error of the last attempt. -/
theorem claim_C1_witness :
    (sendsOf (sendTransactionWithRetry cenvOk tx0 [pkA, pkB] 3).1).length ≤ 3 ∧
    (sendTransactionWithRetry cenvOk tx0 [pkA, pkB] 3).2 = .ok "sig42" ∧
    (sendTransactionWithRetry cenvFail tx0 [pkA, pkB] 3).2 = .error (some "insufficient funds") := by
  refine ⟨(claim_C1_sendTransactionWithRetry_retries cenvOk tx0 [pkA, pkB] 3).1, ?_, ?_⟩
  · exact (claim_C1_sendTransactionWithRetry_retries cenvOk tx0 [pkA, pkB] 3).2.1 1 "sig42"
      (by decide) rfl
      (fun j hj => by
        have hj0 : j = 0 := by omega
        subst hj0
        exact ⟨"blockhash not found", rfl⟩)
  · exact (claim_C1_sendTransactionWithRetry_retries cenvFail tx0 [pkA, pkB] 3).2.2.1
      "insufficient funds" (by decide)
      (fun j _ => ⟨"insufficient funds", rfl⟩) rfl

/-- C4: every transaction submitted by `sendTransactionWithRetry` at attempt
`k` carries the blockhash and last-valid-block-height freshly fetched at
attempt `k`, and its signature list is exactly the provided signers (the old
signatures having been cleared), regardless of the transaction state carried
over from earlier attempts. -/
theorem claim_C4_fresh_blockhash_and_signatures (env : RetryEnv) (tx : TxState)
    (signers : List PublicKey) (maxRetries k : Nat) (tx' : TxState)
    (h : REvent.sent k tx' ∈ (sendTransactionWithRetry env tx signers maxRetries).1) :
    tx'.recentBlockhash = some (env.blockhash k) ∧
    tx'.lastValidBlockHeight = some (env.lastValidHeight k) ∧
    tx'.signatures = signers := by
  have hshape := sendTxRetryGo_sent env signers maxRetries maxRetries 0 tx none k tx' h
  rw [hshape]
  exact ⟨rfl, rfl, rfl⟩

/-- Witness for C4: in the concrete run where attempt 0 fails, the
transaction submitted at attempt 1 carries blockhash 101, height 201 and both
signers' signatures. -/
theorem claim_C4_witness :
    REvent.sent 1 ⟨some 101, some 201, [pkA, pkB]⟩ ∈
      (sendTransactionWithRetry cenvOk tx0 [pkA, pkB] 3).1 ∧
    (⟨some 101, some 201, [pkA, pkB]⟩ : TxState).recentBlockhash = some (cenvOk.blockhash 1) ∧
    (⟨some 101, some 201, [pkA, pkB]⟩ : TxState).lastValidBlockHeight =
      some (cenvOk.lastValidHeight 1) ∧
    (⟨some 101, some 201, [pkA, pkB]⟩ : TxState).signatures = [pkA, pkB] :=
  ⟨by decide,
   claim_C4_fresh_blockhash_and_signatures cenvOk tx0 [pkA, pkB] 3 1 _ (by decide)⟩

/-- C2 (amended): `sendTransactionWithRetry` waits `min(1000·2^k, 10000)` ms
after each failed attempt `k` that is followed by another attempt and never
after the final attempt, but `executeWithRetry` instead waits `1000·(k+1)` ms
after every failed attempt, the final one included (linear backoff, wait also
after the last attempt). -/
theorem claim_C2_amended_backoff (env : RetryEnv) (tx : TxState) (signers : List PublicKey)
    (maxRetries : Nat) (oenv : Nat → Except String String) :
    ((∀ j, j < maxRetries → ∃ e, env.sendResult j = .error e) →
      waitsOf (sendTransactionWithRetry env tx signers maxRetries).1 =
        claimedBackoffWaits maxRetries) ∧
    (∀ k s, k < maxRetries → env.sendResult k = .ok s →
      (∀ j, j < k → ∃ e, env.sendResult j = .error e) →
      waitsOf (sendTransactionWithRetry env tx signers maxRetries).1 =
        (List.range k).map fun j => min (1000 * 2 ^ j) 10000) ∧
    ((∀ j, j < maxRetries → ∃ e, oenv j = .error e) →
      (executeWithRetry oenv maxRetries).1 =
        (List.range maxRetries).map fun j => 1000 * (j + 1)) ∧
    (∀ k s, k < maxRetries → oenv k = .ok s →
      (∀ j, j < k → ∃ e, oenv j = .error e) →
      (executeWithRetry oenv maxRetries).1 =
        (List.range k).map fun j => 1000 * (j + 1)) := by
  refine ⟨?_, ?_, ?_, ?_⟩
  · intro hfail
    rw [claimedBackoffWaits, List.range_eq_range']
    exact sendTxRetryGo_waits_err env signers maxRetries maxRetries 0 tx none
      (Nat.zero_add maxRetries) (fun j _ hj => hfail j (by omega))
  · intro k s hk hok hfail
    rw [List.range_eq_range']
    have := sendTxRetryGo_waits_ok env signers maxRetries maxRetries 0 tx none k s
      (Nat.zero_le k) (by omega) (Nat.zero_add maxRetries) hok (fun j _ hjk => hfail j hjk)
    simpa using this
  · intro hfail
    rw [List.range_eq_range']
    exact executeGo_waits_err oenv maxRetries 0 none (fun j _ hj => hfail j (by omega))
  · intro k s hk hok hfail
    rw [List.range_eq_range']
    have := executeGo_waits_ok oenv maxRetries 0 none k s (Nat.zero_le k) (by omega) hok
      (fun j _ hjk => hfail j hjk)
    simpa using this

/-- Witness for the amended C2 at concrete inputs: with every attempt
failing, `sendTransactionWithRetry` with 3 attempts waits 1000 then 2000 ms
(none after the last attempt), while `executeWithRetry` waits 1000, 2000 and
3000 ms (one after every failed attempt, the last included). -/
theorem claim_C2_amended_witness :
    waitsOf (sendTransactionWithRetry cenvFail tx0 [pkA, pkB] 3).1 = [1000, 2000] ∧
    (executeWithRetry (fun _ => (Except.error "node unreachable" : Except String String)) 3).1 =
      [1000, 2000, 3000] := by
  constructor
  · have h := (claim_C2_amended_backoff cenvFail tx0 [pkA, pkB] 3
      (fun _ => (Except.error "node unreachable" : Except String String))).1
      (fun j _ => ⟨"insufficient funds", rfl⟩)
    rw [h]
    decide
  · have h := (claim_C2_amended_backoff cenvFail tx0 [pkA, pkB] 3
      (fun _ => (Except.error "node unreachable" : Except String String))).2.2.1
      (fun j _ => ⟨"node unreachable", rfl⟩)
    rw [h]
    decide

/-- C2 counterexample: as stated the claim is false for `executeWithRetry`.
With a single allowed attempt that fails, the claim predicts no wait at all
(no attempt remains after the final one), but `executeWithRetry` performs a
1000 ms wait after that final failed attempt; with four failing attempts its
waits are linear (`3000` after attempt 2), not the claimed exponential
`min(1000·2^k, 10000)` (`4000` after attempt 2). -/
theorem claim_C2_counterexample :
    (executeWithRetry (fun _ => (Except.error "node unreachable" : Except String String)) 1).1 =
      [1000] ∧
    claimedBackoffWaits 1 = [] ∧
    (executeWithRetry (fun _ => (Except.error "node unreachable" : Except String String)) 4).1 =
      [1000, 2000, 3000, 4000] ∧
    claimedBackoffWaits 4 = [1000, 2000, 4000] ∧
    ([1000] : List Nat) ≠ [] ∧
    ([1000, 2000, 3000, 4000] : List Nat) ≠ [1000, 2000, 4000] := by
  refine ⟨by decide, by decide, by decide, by decide, by decide, by decide⟩

lemma length_filter_partition {α : Type} (p : α → Bool) (l : List α) :
    (l.filter p).length + (l.filter fun a => ! p a).length = l.length :=
  (List.length_eq_length_filter_add p).symm

lemma freezeStep_cases (env : BatchEnv) (a : PublicKey) :
    (freezeSucceeds env a = true ∧ (freezeStep env a).1 = .success a.toBase58) ∨
    (freezeSucceeds env a = false ∧
      ∃ msg, (freezeStep env a).1 = .failure a.toBase58 msg) := by
  unfold freezeSucceeds freezeStep
  cases hfz : isAccountFrozen env a with
  | error e => simp
  | ok b =>
    cases b with
    | true => simp
    | false =>
      cases hs : env.sendFreezeTxR a with
      | ok s => simp [exceptOk, hs]
      | error e => simp [exceptOk, hs]

lemma thawStep_cases (env : BatchEnv) (a : PublicKey) :
    (thawSucceeds env a = true ∧ (thawStep env a).1 = .success a.toBase58) ∨
    (thawSucceeds env a = false ∧
      ∃ msg, (thawStep env a).1 = .failure a.toBase58 msg) := by
  unfold thawSucceeds thawStep
  cases hfz : isAccountFrozen env a with
  | error e => simp
  | ok b =>
    cases b with
    | false => simp
    | true =>
      cases hs : env.sendThawTxR a with
      | ok s => simp [exceptOk, hs]
      | error e => simp [exceptOk, hs]

lemma consOutcome_spec (o : BatchOutcome) (r : BatchOperationResult) :
    ((∃ s, o = .success s ∧ (consOutcome o r).successes = s :: r.successes ∧
        (consOutcome o r).failures = r.failures) ∨
     (∃ a e, o = .failure a e ∧ (consOutcome o r).successes = r.successes ∧
        (consOutcome o r).failures = ⟨a, e⟩ :: r.failures)) := by
  cases o with
  | success s => exact Or.inl ⟨s, rfl, rfl, rfl⟩
  | failure a e => exact Or.inr ⟨a, e, rfl, rfl, rfl⟩

lemma batchFreeze_partition (env : BatchEnv) : ∀ accounts : List PublicKey,
    (batchFreezeAccounts env accounts).1.successes =
      (accounts.filter (freezeSucceeds env)).map PublicKey.toBase58 ∧
    (batchFreezeAccounts env accounts).1.failures.map BatchFailure.account =
      (accounts.filter fun a => ! freezeSucceeds env a).map PublicKey.toBase58 := by
  intro accounts
  induction accounts with
  | nil => exact ⟨rfl, rfl⟩
  | cons a rest ih =>
    obtain ⟨ih1, ih2⟩ := ih
    rcases freezeStep_cases env a with ⟨hsuc, hstep⟩ | ⟨hsuc, msg, hstep⟩ <;>
      simp [batchFreezeAccounts, hstep, consOutcome, List.filter_cons, hsuc, ih1, ih2,
        PublicKey.toBase58]

lemma batchThaw_partition (env : BatchEnv) : ∀ accounts : List PublicKey,
    (batchThawAccounts env accounts).1.successes =
      (accounts.filter (thawSucceeds env)).map PublicKey.toBase58 ∧
    (batchThawAccounts env accounts).1.failures.map BatchFailure.account =
      (accounts.filter fun a => ! thawSucceeds env a).map PublicKey.toBase58 := by
  intro accounts
  induction accounts with
  | nil => exact ⟨rfl, rfl⟩
  | cons a rest ih =>
    obtain ⟨ih1, ih2⟩ := ih
    rcases thawStep_cases env a with ⟨hsuc, hstep⟩ | ⟨hsuc, msg, hstep⟩ <;>
      simp [batchThawAccounts, hstep, consOutcome, List.filter_cons, hsuc, ih1, ih2,
        PublicKey.toBase58]

lemma batchLoopStatic_partition (send : PublicKey → Except (Option String) String) :
    ∀ accounts : List PublicKey,
    (batchLoopStatic send accounts).successes =
      (accounts.filter (staticSucceeds send)).map PublicKey.toBase58 ∧
    (batchLoopStatic send accounts).failures.map BatchFailure.account =
      (accounts.filter fun a => ! staticSucceeds send a).map PublicKey.toBase58 := by
  intro accounts
  induction accounts with
  | nil => exact ⟨rfl, rfl⟩
  | cons a rest ih =>
    obtain ⟨ih1, ih2⟩ := ih
    cases hs : send a with
    | ok s =>
      simp [batchLoopStatic, hs, consOutcome, List.filter_cons, staticSucceeds, exceptOk,
        ih1, ih2, PublicKey.toBase58]
    | error e =>
      simp [batchLoopStatic, hs, consOutcome, List.filter_cons, staticSucceeds, exceptOk,
        ih1, ih2, PublicKey.toBase58]

/-- C3: in all four batch loops (instance and static, freeze and thaw), each
input account lands, as its base58 string, exactly once in either
`successes` or `failures`, in input order within each list (the two lists are
exactly the base58 images of the two complementary input filters, and their
lengths sum to the input length), so a failure on one account never prevents
the remaining accounts from being processed. -/
theorem claim_C3_batch_per_item_aggregation (env : BatchEnv) (accounts : List PublicKey) :
    ((batchFreezeAccounts env accounts).1.successes =
        (accounts.filter (freezeSucceeds env)).map PublicKey.toBase58 ∧
      (batchFreezeAccounts env accounts).1.failures.map BatchFailure.account =
        (accounts.filter fun a => ! freezeSucceeds env a).map PublicKey.toBase58 ∧
      (batchFreezeAccounts env accounts).1.successes.length +
        (batchFreezeAccounts env accounts).1.failures.length = accounts.length) ∧
    ((batchThawAccounts env accounts).1.successes =
        (accounts.filter (thawSucceeds env)).map PublicKey.toBase58 ∧
      (batchThawAccounts env accounts).1.failures.map BatchFailure.account =
        (accounts.filter fun a => ! thawSucceeds env a).map PublicKey.toBase58 ∧
      (batchThawAccounts env accounts).1.successes.length +
        (batchThawAccounts env accounts).1.failures.length = accounts.length) ∧
    ((batchFreezeAccountsStatic env accounts).successes =
        (accounts.filter (staticSucceeds env.sendConfirmFreezeR)).map PublicKey.toBase58 ∧
      (batchFreezeAccountsStatic env accounts).failures.map BatchFailure.account =
        (accounts.filter fun a => ! staticSucceeds env.sendConfirmFreezeR a).map
          PublicKey.toBase58) ∧
    ((batchThawAccountsStatic env accounts).successes =
        (accounts.filter (staticSucceeds env.sendConfirmThawR)).map PublicKey.toBase58 ∧
      (batchThawAccountsStatic env accounts).failures.map BatchFailure.account =
        (accounts.filter fun a => ! staticSucceeds env.sendConfirmThawR a).map
          PublicKey.toBase58) := by
  obtain ⟨hf1, hf2⟩ := batchFreeze_partition env accounts
  obtain ⟨ht1, ht2⟩ := batchThaw_partition env accounts
  refine ⟨⟨hf1, hf2, ?_⟩, ⟨ht1, ht2, ?_⟩,
    batchLoopStatic_partition env.sendConfirmFreezeR accounts,
    batchLoopStatic_partition env.sendConfirmThawR accounts⟩
  · have := length_filter_partition (freezeSucceeds env) accounts
    have h2 := congrArg List.length hf2
    simp only [List.length_map] at h2
    rw [hf1, h2]
    simpa using this
  · have := length_filter_partition (thawSucceeds env) accounts
    have h2 := congrArg List.length ht2
    simp only [List.length_map] at h2
    rw [ht1, h2]
    simpa using this

lemma batchFreeze_sent_flag (env : BatchEnv) : ∀ accounts a,
    a ∈ (batchFreezeAccounts env accounts).2 → (freezeStep env a).2 = true := by
  intro accounts
  induction accounts with
  | nil => intro a ha; simp [batchFreezeAccounts] at ha
  | cons b rest ih =>
    intro a ha
    by_cases hb : (freezeStep env b).2 <;> simp [batchFreezeAccounts, hb] at ha
    · rcases ha with rfl | ha
      · exact hb
      · exact ih a ha
    · exact ih a ha

lemma batchThaw_sent_flag (env : BatchEnv) : ∀ accounts a,
    a ∈ (batchThawAccounts env accounts).2 → (thawStep env a).2 = true := by
  intro accounts
  induction accounts with
  | nil => intro a ha; simp [batchThawAccounts] at ha
  | cons b rest ih =>
    intro a ha
    by_cases hb : (thawStep env b).2 <;> simp [batchThawAccounts, hb] at ha
    · rcases ha with rfl | ha
      · exact hb
      · exact ih a ha
    · exact ih a ha

lemma mem_consOutcome_failures (o : BatchOutcome) (r : BatchOperationResult)
    (f : BatchFailure) (h : f ∈ r.failures) : f ∈ (consOutcome o r).failures := by
  cases o <;> simp [consOutcome, h]

lemma batchFreeze_failure_of_step (env : BatchEnv) : ∀ accounts a msg,
    a ∈ accounts → (freezeStep env a).1 = .failure a.toBase58 msg →
    (⟨a.toBase58, msg⟩ : BatchFailure) ∈ (batchFreezeAccounts env accounts).1.failures := by
  intro accounts
  induction accounts with
  | nil => intro a msg ha; simp at ha
  | cons b rest ih =>
    intro a msg ha hstep
    rcases List.mem_cons.mp ha with rfl | hrest
    · simp [batchFreezeAccounts, hstep, consOutcome]
    · exact mem_consOutcome_failures _ _ _ (ih a msg hrest hstep)

lemma batchThaw_failure_of_step (env : BatchEnv) : ∀ accounts a msg,
    a ∈ accounts → (thawStep env a).1 = .failure a.toBase58 msg →
    (⟨a.toBase58, msg⟩ : BatchFailure) ∈ (batchThawAccounts env accounts).1.failures := by
  intro accounts
  induction accounts with
  | nil => intro a msg ha; simp at ha
  | cons b rest ih =>
    intro a msg ha hstep
    rcases List.mem_cons.mp ha with rfl | hrest
    · simp [batchThawAccounts, hstep, consOutcome]
    · exact mem_consOutcome_failures _ _ _ (ih a msg hrest hstep)

/-- C8: in the instance batch loops, an account already in the target state
is recorded as a failure with the fixed message and no transaction is
submitted for it: `batchFreezeAccounts` records `'Account is already
frozen'` when `isAccountFrozen` returns true, `batchThawAccounts` records
`'Account is not frozen'` when it returns false, and in both cases the
account is absent from the list of submitted transactions. -/
theorem claim_C8_skip_accounts_in_target_state (env : BatchEnv)
    (accounts : List PublicKey) (a : PublicKey) (hmem : a ∈ accounts) :
    (isAccountFrozen env a = .ok true →
      (⟨a.toBase58, "Account is already frozen"⟩ : BatchFailure) ∈
        (batchFreezeAccounts env accounts).1.failures ∧
      a ∉ (batchFreezeAccounts env accounts).2) ∧
    (isAccountFrozen env a = .ok false →
      (⟨a.toBase58, "Account is not frozen"⟩ : BatchFailure) ∈
        (batchThawAccounts env accounts).1.failures ∧
      a ∉ (batchThawAccounts env accounts).2) := by
  constructor
  · intro hfz
    have hstep : freezeStep env a = (.failure a.toBase58 "Account is already frozen", false) := by
      simp [freezeStep, hfz]
    refine ⟨batchFreeze_failure_of_step env accounts a _ hmem (by rw [hstep]), ?_⟩
    intro hsent
    have := batchFreeze_sent_flag env accounts a hsent
    rw [hstep] at this
    exact Bool.false_ne_true this
  · intro hfz
    have hstep : thawStep env a = (.failure a.toBase58 "Account is not frozen", false) := by
      simp [thawStep, hfz]
    refine ⟨batchThaw_failure_of_step env accounts a _ hmem (by rw [hstep]), ?_⟩
    intro hsent
    have := batchThaw_sent_flag env accounts a hsent
    rw [hstep] at this
    exact Bool.false_ne_true this

/-- Witness for C8: over the concrete environment, `pkC` (frozen) is skipped
by the freeze loop and `pkD` (not frozen) is skipped by the thaw loop. -/
theorem claim_C8_witness :
    ((⟨pkC.toBase58, "Account is already frozen"⟩ : BatchFailure) ∈
        (batchFreezeAccounts cbatchEnv [pkC, pkD]).1.failures ∧
      pkC ∉ (batchFreezeAccounts cbatchEnv [pkC, pkD]).2) ∧
    ((⟨pkD.toBase58, "Account is not frozen"⟩ : BatchFailure) ∈
        (batchThawAccounts cbatchEnv [pkC, pkD]).1.failures ∧
      pkD ∉ (batchThawAccounts cbatchEnv [pkC, pkD]).2) :=
  ⟨(claim_C8_skip_accounts_in_target_state cbatchEnv [pkC, pkD] pkC (by decide)).1
      (by decide),
   (claim_C8_skip_accounts_in_target_state cbatchEnv [pkC, pkD] pkD (by decide)).2
      (by decide)⟩

/-- C5: `setMetadata` builds an update-metadata instruction exactly when the
metadata account derived from the mint exists, and a create-metadata
instruction exactly when it does not; `createMetadata` and `updateMetadata`
delegate unchanged to `setMetadata`, so the two entry points are
extensionally equal and each can perform either a create or an update. -/
theorem claim_C5_set_metadata_create_or_update (env : MetaEnv) (mint : PublicKey)
    (md : TokenMetadata) (payer : PublicKey) :
    ((setMetadata env mint md payer).1 =
        MetaInstr.updateV2 (metadataPDA mint) payer (dataV2Of md) true true ↔
      env.accountExists (metadataPDA mint) = true) ∧
    ((setMetadata env mint md payer).1 =
        MetaInstr.createV3 (metadataPDA mint) mint payer payer payer (dataV2Of md) true ↔
      env.accountExists (metadataPDA mint) = false) ∧
    createMetadata env mint md payer = setMetadata env mint md payer ∧
    updateMetadata env mint md payer = setMetadata env mint md payer := by
  refine ⟨?_, ?_, rfl, rfl⟩ <;>
    by_cases h : env.accountExists (metadataPDA mint) <;> simp [setMetadata, h]

/-- C6 evidence (code bug): `config.mainnet` does not depend on the
environment at all — it is the same for any two environments, and even when
`MAINNET_MIN_BALANCE=0.2`, `MAINNET_WARNING_THRESHOLD=0.9` and
`MAINNET_MAX_RETRIES=7` are set it stays at the hardcoded
`{confirmations: 20, minBalance: 0.1, warningThreshold: 0.5, maxRetries: 3}`;
the network and RPC-endpoint parts of the claim do hold. -/
theorem claim_C6_mainnet_thresholds_hardcoded :
    (∀ env env' : EnvVars, (config env).mainnet = (config env').mainnet) ∧
    (config envMainnetTuned).mainnet = ⟨20, 1 / 10, 1 / 2, 3⟩ ∧
    ¬ (config envMainnetTuned).mainnet.minBalance = 2 / 10 ∧
    ¬ (config envMainnetTuned).mainnet.maxRetries = 7 ∧
    (config envMainnetTuned).network = "mainnet-beta" ∧
    (config envMainnetTuned).rpcUrl = "https://api.mainnet-beta.solana.com" ∧
    getNetworkConfig envMainnetTuned "mainnet-beta" =
      ⟨clusterApiUrl "mainnet-beta", "confirmed"⟩ := by
  refine ⟨fun env env' => rfl, rfl, by norm_num [config], by decide, by decide, ?_, ?_⟩
  · simp [config, envMainnetTuned, jsOr]
  · simp [getNetworkConfig, envMainnetTuned, jsOr, clusterApiUrl]

/-- C7: associated-token-account resolution is deterministic per owner and
mint.  Both `transfer` (for its source account) and `getTokenBalance`
resolve the payer's associated account for the same `(mint, payer)` pair —
even across two distinct runs/environments — and whenever either gets far
enough to use the resolved account, that account is the one deterministic
`associatedTokenAddress payer mint`. -/
theorem claim_C7_ata_resolution_deterministic (env env' : TokenEnv)
    (payer mint recipient : PublicKey) (amount : ℚ) :
    TokenCall.ataCall mint payer ∈ (transfer env payer mint recipient amount).1 ∧
    TokenCall.ataCall mint payer ∈ (getTokenBalance env' payer mint).1 ∧
    (∀ src dst raw,
      TokenCall.transferCall src dst raw ∈ (transfer env payer mint recipient amount).1 →
      src = associatedTokenAddress payer mint) ∧
    (∀ acct, TokenCall.getAccountCall acct ∈ (getTokenBalance env' payer mint).1 →
      acct = associatedTokenAddress payer mint) := by
  refine ⟨?_, ?_, ?_, ?_⟩
  · cases h1 : env.ataR mint payer with
    | ok u =>
      cases h2 : env.ataR mint recipient with
      | ok u2 =>
        cases h3 : env.getMintR mint with
        | ok info => simp [transfer, getOrCreateATA, h1, h2, h3]
        | error e => simp [transfer, getOrCreateATA, h1, h2, h3]
      | error e => simp [transfer, getOrCreateATA, h1, h2]
    | error e => simp [transfer, getOrCreateATA, h1]
  · cases h1 : env'.ataR mint payer with
    | ok u =>
      cases h2 : env'.getAccountAmount (associatedTokenAddress payer mint) with
      | ok amt =>
        cases h3 : env'.getMintR mint with
        | ok info => simp [getTokenBalance, getOrCreateATA, h1, h2, h3]
        | error e => simp [getTokenBalance, getOrCreateATA, h1, h2, h3]
      | error e => simp [getTokenBalance, getOrCreateATA, h1, h2]
    | error e => simp [getTokenBalance, getOrCreateATA, h1]
  · intro src dst raw hmem
    cases h1 : env.ataR mint payer with
    | ok u =>
      cases h2 : env.ataR mint recipient with
      | ok u2 =>
        cases h3 : env.getMintR mint with
        | ok info =>
          simp [transfer, getOrCreateATA, h1, h2, h3] at hmem
          exact hmem.1
        | error e => simp [transfer, getOrCreateATA, h1, h2, h3] at hmem
      | error e => simp [transfer, getOrCreateATA, h1, h2] at hmem
    | error e => simp [transfer, getOrCreateATA, h1] at hmem
  · intro acct hmem
    cases h1 : env'.ataR mint payer with
    | ok u =>
      cases h2 : env'.getAccountAmount (associatedTokenAddress payer mint) with
      | ok amt =>
        cases h3 : env'.getMintR mint with
        | ok info =>
          simp [getTokenBalance, getOrCreateATA, h1, h2, h3] at hmem
          exact hmem
        | error e =>
          simp [getTokenBalance, getOrCreateATA, h1, h2, h3] at hmem
          exact hmem
      | error e =>
        simp [getTokenBalance, getOrCreateATA, h1, h2] at hmem
        exact hmem
    | error e => simp [getTokenBalance, getOrCreateATA, h1] at hmem

/-- Witness for C7 at the concrete environment: both operations resolve the
same deterministic associated account for `(pkA, pkMint)`. -/
theorem claim_C7_witness :
    TokenCall.ataCall pkMint pkA ∈ (transfer cTokenEnv pkA pkMint pkRecipient 5).1 ∧
    TokenCall.ataCall pkMint pkA ∈ (getTokenBalance cTokenEnv pkA pkMint).1 ∧
    associatedTokenAddress pkA pkMint = associatedTokenAddress pkA pkMint :=
  ⟨(claim_C7_ata_resolution_deterministic cTokenEnv cTokenEnv pkA pkMint pkRecipient 5).1,
   (claim_C7_ata_resolution_deterministic cTokenEnv cTokenEnv pkA pkMint pkRecipient 5).2.1,
   (claim_C7_ata_resolution_deterministic cTokenEnv cTokenEnv pkA pkMint pkRecipient 5).2.2.2
     (associatedTokenAddress pkA pkMint) (by decide)⟩

/-- C9: `mintMoreTokens`, `disableMinting`, `updateMintAuthority` and
`updateFreezeAuthority` verify the supplied keypair against the mint's
current mint (resp. freeze) authority before building anything; on
verification failure each throws the corresponding `Error` and performs no
`mintTo`/`setAuthority` call, so no transaction is submitted on that path. -/
theorem claim_C9_authority_verified_before_submission (env : TokenEnv)
    (payer mint auth : PublicKey) (amount : ℚ) (newAuth : Option PublicKey)
    (info : MintInfo) (hmint : env.getMintR mint = .ok info) :
    (info.mintAuthority ≠ some auth →
      (mintMoreTokens env payer mint amount auth).2 =
        .error "Failed to mint tokens: Provided keypair is not the mint authority" ∧
      (∀ c ∈ (mintMoreTokens env payer mint amount auth).1, isSubmitCall c = false) ∧
      (disableMinting env mint auth).2 =
        .error "Failed to disable minting: Provided keypair is not the mint authority" ∧
      (∀ c ∈ (disableMinting env mint auth).1, isSubmitCall c = false) ∧
      (updateMintAuthority env mint auth newAuth).2 =
        .error "Failed to update mint authority: Invalid mint authority" ∧
      (∀ c ∈ (updateMintAuthority env mint auth newAuth).1, isSubmitCall c = false)) ∧
    (info.freezeAuthority ≠ some auth →
      (updateFreezeAuthority env mint auth newAuth).2 =
        .error "Failed to update freeze authority: Invalid freeze authority" ∧
      (∀ c ∈ (updateFreezeAuthority env mint auth newAuth).1, isSubmitCall c = false)) := by
  constructor
  · intro hne
    have hd : decide (info.mintAuthority = some auth) = false := decide_eq_false hne
    refine ⟨?_, ?_, ?_, ?_, ?_, ?_⟩
    · simp [mintMoreTokens, hmint, hne]
    · simp [mintMoreTokens, hmint, hne, isSubmitCall]
    · simp [disableMinting, hmint, hne]
    · simp [disableMinting, hmint, hne, isSubmitCall]
    · simp [updateMintAuthority, verifyAuthority, hmint, hd]
    · simp [updateMintAuthority, verifyAuthority, hmint, hd, isSubmitCall]
  · intro hne
    have hd : decide (info.freezeAuthority = some auth) = false := decide_eq_false hne
    constructor
    · simp [updateFreezeAuthority, verifyAuthority, hmint, hd]
    · simp [updateFreezeAuthority, verifyAuthority, hmint, hd, isSubmitCall]

/-- Witness for C9: `pkOther` holds neither authority of `pkMint`, so the
concrete operations all fail with the fixed messages. -/
theorem claim_C9_witness :
    (mintMoreTokens cTokenEnv pkA pkMint 5 pkOther).2 =
      .error "Failed to mint tokens: Provided keypair is not the mint authority" ∧
    (updateFreezeAuthority cTokenEnv pkMint pkOther none).2 =
      .error "Failed to update freeze authority: Invalid freeze authority" :=
  ⟨((claim_C9_authority_verified_before_submission cTokenEnv pkA pkMint pkOther 5 none
      ⟨some pkA, some pkB, 2⟩ (by decide)).1 (by decide)).1,
   ((claim_C9_authority_verified_before_submission cTokenEnv pkA pkMint pkOther 5 none
      ⟨some pkA, some pkB, 2⟩ (by decide)).2 (by decide)).1⟩

/-- C10: `transfer`, `burn` and `getTokenBalance` all convert with the same
mint's decimals — the first two turn the user amount into raw units via
`uiToRaw` (amount·10^decimals), the balance read turns raw units back via
`rawToUi` (raw/10^decimals) — and over exact arithmetic the two conversions
compose to the identity for every amount and every decimals in 0..9. -/
theorem claim_C10_amount_conversion_roundtrip (env : TokenEnv)
    (payer mint recipient : PublicKey) (amount : ℚ) (d : Nat) (info : MintInfo) :
    (env.getMintR mint = .ok info →
      (∀ src dst raw,
        TokenCall.transferCall src dst raw ∈ (transfer env payer mint recipient amount).1 →
        raw = uiToRaw info.decimals amount) ∧
      (∀ acct m raw, TokenCall.burnCall acct m raw ∈ (burn env payer mint amount).1 →
        raw = uiToRaw info.decimals amount) ∧
      (∀ amt, env.ataR mint payer = .ok () →
        env.getAccountAmount (associatedTokenAddress payer mint) = .ok amt →
        (getTokenBalance env payer mint).2 = .ok (rawToUi info.decimals amt))) ∧
    (d ≤ 9 → rawToUi d (uiToRaw d amount) = amount) := by
  constructor
  · intro hmint
    refine ⟨?_, ?_, ?_⟩
    · intro src dst raw hmem
      cases h1 : env.ataR mint payer with
      | ok u =>
        cases h2 : env.ataR mint recipient with
        | ok u2 =>
          simp [transfer, getOrCreateATA, h1, h2, hmint] at hmem
          exact hmem.2.2
        | error e => simp [transfer, getOrCreateATA, h1, h2] at hmem
      | error e => simp [transfer, getOrCreateATA, h1] at hmem
    · intro acct m raw hmem
      cases h1 : env.ataR mint payer with
      | ok u =>
        simp [burn, getOrCreateATA, h1, hmint] at hmem
        exact hmem.2.2
      | error e => simp [burn, getOrCreateATA, h1] at hmem
    · intro amt hata hamt
      simp [getTokenBalance, getOrCreateATA, hata, hamt, hmint]
  · intro _
    rw [uiToRaw, rawToUi]
    exact mul_div_cancel_right₀ amount (pow_ne_zero d (by norm_num))

/-- Witness for C10 at the concrete environment (2 decimals, raw balance
300): the balance returned is `300/10^2` and the round trip is the identity
at `d = 9`, `amount = 5`. -/
theorem claim_C10_witness :
    (getTokenBalance cTokenEnv pkA pkMint).2 = .ok (rawToUi 2 300) ∧
    rawToUi 9 (uiToRaw 9 5) = 5 :=
  ⟨((claim_C10_amount_conversion_roundtrip cTokenEnv pkA pkMint pkRecipient 5 9
      ⟨some pkA, some pkB, 2⟩).1 (by decide)).2.2 300 rfl (by decide),
   (claim_C10_amount_conversion_roundtrip cTokenEnv pkA pkMint pkRecipient 5 9
      ⟨some pkA, some pkB, 2⟩).2 (by decide)⟩

end TokenCLI
